import Mathlib

/-!
Verification development for the resilient transport and retrieval layer of
the `full-chaos/atlassian` client library.  Each section shallowly embeds one
piece of the Python source (token-bucket throttle, Retry-After parsing,
REST/GraphQL pagination, response-shape deserialization, credential
construction) as executable Lean definitions, and the theorems at the end
settle the frozen specification claims against those definitions.

Python floats and datetimes are modelled with exact rationals (`ℚ`); wall
clock times are rationals measured in seconds.  The deterministic injectable
clock/sleeper of the source's tests is modelled by threading the current time
through the computation: `now()` returns the current time and `sleeper s`
advances it by `s`.
-/

/-! ## Token bucket (src/python/atlassian/graph/throttle.py) -/

/-- State of `TokenBucket`: `capacity`, `refill_rate_per_sec`, the current
`tokens` count (field `_tokens`) and the `_last_refill` timestamp.  The
constructor rejects non-positive capacity and refill rate; theorems carry
those as hypotheses. -/
structure TokenBucket where
  capacity : ℚ
  refill_rate_per_sec : ℚ
  tokens : ℚ
  last_refill : ℚ
deriving DecidableEq, Repr

/-- `TokenBucket.__init__`: a fresh bucket starts full (`_tokens = capacity`)
with `_last_refill = now()`. -/
def TokenBucket.init (capacity refill_rate_per_sec t0 : ℚ) : TokenBucket :=
  { capacity := capacity
    refill_rate_per_sec := refill_rate_per_sec
    tokens := capacity
    last_refill := t0 }

/-- `TokenBucket._refill_locked`: add `elapsed * refill_rate_per_sec` tokens,
clamped to `capacity`, only when `elapsed > 0`. -/
def TokenBucket.refill_locked (b : TokenBucket) (now : ℚ) : TokenBucket :=
  let elapsed := now - b.last_refill
  if 0 < elapsed then
    { b with
        tokens := min b.capacity (b.tokens + elapsed * b.refill_rate_per_sec)
        last_refill := now }
  else
    b

/-- The error raised by `consume` (class `LocalRateLimitError` in
src/python/atlassian_graphql/errors.py), carrying `estimated_cost`,
`wait_seconds` and `max_wait_seconds`. -/
structure LocalRateLimitError where
  estimated_cost : ℚ
  wait_seconds : ℚ
  max_wait_seconds : ℚ
deriving DecidableEq, Repr

/-- Outcome of one `consume` call: the returned total wait, a raised
`LocalRateLimitError`, or exhaustion of the recursion fuel.  Every
constructor carries the bucket state and the clock value afterwards. -/
inductive ConsumeResult where
  | ok (waited : ℚ) (b : TokenBucket) (t : ℚ)
  | err (e : LocalRateLimitError) (b : TokenBucket) (t : ℚ)
  | outOfFuel (b : TokenBucket) (t : ℚ)
deriving DecidableEq, Repr

/-- The `while True` loop of `TokenBucket.consume`, with the deterministic
clock threaded through (`t` is the current time; sleeping for `s` advances
it to `t + s`).  The loop refills at the current time, deducts and returns
when `tokens >= cost`, and otherwise sleeps `min needed remaining` or raises
once the deadline has passed.  Recursion is bounded by `fuel`. -/
def TokenBucket.consumeLoop (cost deadline max_wait_seconds : ℚ) :
    TokenBucket → ℚ → ℚ → ℕ → ConsumeResult
  | b, t, _, 0 => .outOfFuel b t
  | b, t, waited, fuel + 1 =>
    let b' := b.refill_locked t
    if cost ≤ b'.tokens then
      .ok waited { b' with tokens := b'.tokens - cost } t
    else
      let needed := cost - b'.tokens
      let last_wait_needed := needed / b'.refill_rate_per_sec
      let remaining := deadline - t
      if remaining ≤ 0 ∨ last_wait_needed ≤ 0 then
        .err ⟨cost, last_wait_needed, max_wait_seconds⟩ b' t
      else
        let sleep_for := min last_wait_needed remaining
        TokenBucket.consumeLoop cost deadline max_wait_seconds
          b' (t + sleep_for) (waited + sleep_for) fuel

/-- `TokenBucket.consume(cost, max_wait_seconds)`: returns `0` at once for
`cost <= 0`, otherwise computes the deadline `now() + max_wait_seconds` once
at entry and runs the loop. -/
def TokenBucket.consume (b : TokenBucket) (t cost max_wait_seconds : ℚ)
    (fuel : ℕ) : ConsumeResult :=
  if cost ≤ 0 then
    .ok 0 b t
  else
    TokenBucket.consumeLoop cost (t + max_wait_seconds) max_wait_seconds
      b t 0 fuel

/-- The bucket-count invariant of the spec's data model:
`0 ≤ currentTokens ≤ capacity`. -/
def TokenBucket.Inv (b : TokenBucket) : Prop :=
  0 ≤ b.tokens ∧ b.tokens ≤ b.capacity

instance (b : TokenBucket) : Decidable b.Inv := by
  unfold TokenBucket.Inv; infer_instance

/-- Bucket state and clock after a `consume` call, whatever its outcome. -/
def ConsumeResult.state : ConsumeResult → TokenBucket × ℚ
  | .ok _ b t => (b, t)
  | .err _ b t => (b, t)
  | .outOfFuel b t => (b, t)

/-- Folding a sequence of `consume(cost, maxWait)` calls (each with its own
fuel) over a bucket-and-clock state. -/
def TokenBucket.consumeSeq (st : TokenBucket × ℚ) (c : ℚ × ℚ × ℕ) :
    TokenBucket × ℚ :=
  (TokenBucket.consume st.1 st.2 c.1 c.2.1 c.2.2).state

/-! ## Python string primitives

Models of the Python `str` methods the sources use (`strip`, `lower`,
`upper`, `split`, `endswith`, `int(...)`), implemented by structural
recursion over character lists (ASCII whitespace and case, which is all
these code paths meet). -/

/-- `str.strip()` on a character list. -/
def pyStripList (cs : List Char) : List Char :=
  ((cs.dropWhile Char.isWhitespace).reverse.dropWhile Char.isWhitespace).reverse

/-- `str.strip()`. -/
def pyStrip (s : String) : String := String.mk (pyStripList s.toList)

/-- ASCII `str.lower` on one character. -/
def pyLowerChar (c : Char) : Char :=
  if 65 ≤ c.toNat ∧ c.toNat ≤ 90 then Char.ofNat (c.toNat + 32) else c

/-- ASCII `str.upper` on one character. -/
def pyUpperChar (c : Char) : Char :=
  if 97 ≤ c.toNat ∧ c.toNat ≤ 122 then Char.ofNat (c.toNat - 32) else c

/-- `str.lower()`. -/
def pyLower (s : String) : String := String.mk (s.toList.map pyLowerChar)

/-- `str.upper()`. -/
def pyUpper (s : String) : String := String.mk (s.toList.map pyUpperChar)

/-- `str.split()` helper: words accumulated so far are reversed. -/
def pyWordsAux : List Char → List Char → List (List Char)
  | acc, [] => if acc.isEmpty then [] else [acc.reverse]
  | acc, c :: cs =>
    if c.isWhitespace then
      if acc.isEmpty then pyWordsAux [] cs else acc.reverse :: pyWordsAux [] cs
    else pyWordsAux (c :: acc) cs

/-- `str.split()` with no separator: whitespace runs, empties dropped. -/
def pyWords (s : String) : List String := (pyWordsAux [] s.toList).map String.mk

/-- `str.split(sep)` helper for a one-character separator. -/
def splitCharAux (sep : Char) : List Char → List Char → List (List Char)
  | acc, [] => [acc.reverse]
  | acc, c :: cs =>
    if c = sep then acc.reverse :: splitCharAux sep [] cs
    else splitCharAux sep (c :: acc) cs

/-- `str.split(sep)` for a one-character separator. -/
def splitChar (sep : Char) (cs : List Char) : List (List Char) :=
  splitCharAux sep [] cs

/-- `int(w)` on a non-empty all-digit word, else `None`. -/
def digitsToNatAux : ℕ → List Char → Option ℕ
  | acc, [] => some acc
  | acc, c :: cs =>
    if c.isDigit then digitsToNatAux (acc * 10 + (c.toNat - 48)) cs else none

/-- `int(w)` on a non-empty all-digit word, else `None`. -/
def digitsToNat : List Char → Option ℕ
  | [] => none
  | cs => digitsToNatAux 0 cs

/-- The last character of a string, if any (for `str.endswith` on a
one-character suffix). -/
def lastChar : List Char → Option Char
  | [] => none
  | [c] => some c
  | _ :: cs => lastChar cs

/-! ## Retry-After parsing (src/python/atlassian_graphql/retry.py)

The source delegates to the stdlib collaborators `datetime.fromisoformat`
and `email.utils.parsedate_to_datetime`; those are modelled below on the
whole-second grammars this code path deals with.  Aware/naive datetimes are
modelled by `PyDateTime` with an optional UTC-offset in minutes, and a UTC
instant (the result of `astimezone(timezone.utc)`) is represented by its
epoch-second count, so that two datetimes denote the same instant iff their
`epochUtcSeconds` agree. -/

/-- Naive or timezone-aware civil datetime, seconds precision. -/
structure PyDateTime where
  year : ℕ
  month : ℕ
  day : ℕ
  hour : ℕ
  minute : ℕ
  second : ℕ
  tz_offset_minutes : Option ℤ
deriving DecidableEq, Repr

/-- Day count of a month in the proleptic Gregorian calendar, as validated by
the stdlib `datetime` constructor. -/
def daysInMonth (y m : ℕ) : ℕ :=
  if m = 2 then (if (y % 4 = 0 ∧ y % 100 ≠ 0) ∨ y % 400 = 0 then 29 else 28)
  else if m = 4 ∨ m = 6 ∨ m = 9 ∨ m = 11 then 30 else 31

/-- Range validation performed by the stdlib `datetime` constructor. -/
def validDate (y m d : ℕ) : Bool :=
  decide (1 ≤ y ∧ y ≤ 9999 ∧ 1 ≤ m ∧ m ≤ 12 ∧ 1 ≤ d ∧ d ≤ daysInMonth y m)

/-- Time-of-day range validation performed by the stdlib `datetime`
constructor. -/
def validTime (h mi s : ℕ) : Bool :=
  decide (h ≤ 23 ∧ mi ≤ 59 ∧ s ≤ 59)

/-- Read exactly `n` decimal digits off the front of a character list,
returning their value and the rest. -/
def takeDigits : ℕ → ℕ → List Char → Option (ℕ × List Char)
  | acc, 0, cs => some (acc, cs)
  | acc, n + 1, c :: cs =>
    if c.isDigit then takeDigits (acc * 10 + (c.toNat - 48)) n cs else none
  | _, _ + 1, [] => none

/-- Consume one expected character. -/
def expectChar (ch : Char) : List Char → Option (List Char)
  | c :: cs => if c = ch then some cs else none
  | [] => none

/-- Tail of an ISO time: either nothing (naive) or an explicit `±HH:MM`
UTC offset. -/
def parseIsoTail : List Char → Option (Option ℤ)
  | [] => some none
  | c :: cs =>
    if c = '+' ∨ c = '-' then
      match takeDigits 0 2 cs with
      | some (hh, r1) =>
        match expectChar ':' r1 with
        | some r2 =>
          match takeDigits 0 2 r2 with
          | some (mm, []) =>
            if hh ≤ 23 ∧ mm ≤ 59 then
              some (some ((if c = '-' then -1 else 1) * ((hh : ℤ) * 60 + mm)))
            else none
          | _ => none
        | none => none
      | none => none
    else none

/-- ISO time-of-day `HH:MM[:SS]` followed by the offset tail. -/
def parseIsoTime (cs : List Char) : Option (ℕ × ℕ × ℕ × Option ℤ) :=
  match takeDigits 0 2 cs with
  | some (h, r1) =>
    match expectChar ':' r1 with
    | some r2 =>
      match takeDigits 0 2 r2 with
      | some (mi, r3) =>
        match r3 with
        | ':' :: r4 =>
          match takeDigits 0 2 r4 with
          | some (s, r5) =>
            match parseIsoTail r5 with
            | some tz => some (h, mi, s, tz)
            | none => none
          | none => none
        | _ =>
          match parseIsoTail r3 with
          | some tz => some (h, mi, 0, tz)
          | none => none
      | none => none
    | none => none
  | none => none

/-- Model of the stdlib collaborator `datetime.fromisoformat` (CPython ≤3.10
grammar), restricted to whole seconds: `YYYY-MM-DD`, optionally followed by
one arbitrary separator character, `HH:MM[:SS]` and an optional `±HH:MM`
offset.  Fractional seconds are outside the modelled grammar. -/
def fromisoformatModel (s : String) : Option PyDateTime :=
  match takeDigits 0 4 s.toList with
  | some (y, r1) =>
    match expectChar '-' r1 with
    | some r2 =>
      match takeDigits 0 2 r2 with
      | some (m, r3) =>
        match expectChar '-' r3 with
        | some r4 =>
          match takeDigits 0 2 r4 with
          | some (d, rest) =>
            if validDate y m d then
              match rest with
              | [] => some ⟨y, m, d, 0, 0, 0, none⟩
              | _sep :: timecs =>
                match parseIsoTime timecs with
                | some (h, mi, sec, tz) =>
                  if validTime h mi sec then some ⟨y, m, d, h, mi, sec, tz⟩
                  else none
                | none => none
            else none
          | none => none
        | none => none
      | none => none
    | none => none
  | none => none

/-- Month names recognised by `email.utils.parsedate_to_datetime`. -/
def monthNum (w : String) : Option ℕ :=
  List.lookup (pyLower w)
    [("jan", 1), ("feb", 2), ("mar", 3), ("apr", 4), ("may", 5), ("jun", 6),
     ("jul", 7), ("aug", 8), ("sep", 9), ("oct", 10), ("nov", 11), ("dec", 12)]

/-- Day names recognised (and skipped) by `email.utils.parsedate`. -/
def dayNames : List String :=
  ["mon", "tue", "wed", "thu", "fri", "sat", "sun"]

/-- Timezone token of an RFC 2822 date: the named zones known to
`email.utils.parsedate_tz` (offset in minutes), a numeric `±HHMM` offset, or
an unknown alphabetic zone which yields a naive datetime. -/
def parseZone (w : String) : Option (Option ℤ) :=
  match List.lookup (pyUpper w)
      [("UT", (0 : ℤ)), ("UTC", 0), ("GMT", 0), ("Z", 0),
       ("AST", -240), ("ADT", -180), ("EST", -300), ("EDT", -240),
       ("CST", -360), ("CDT", -300), ("MST", -420), ("MDT", -360),
       ("PST", -480), ("PDT", -420)] with
  | some off => some (some off)
  | none =>
    match w.toList with
    | c :: cs =>
      if (c = '+' ∨ c = '-') then
        match takeDigits 0 4 cs with
        | some (v, []) =>
          some (some ((if c = '-' then -1 else 1) * ((v / 100 : ℕ) * 60 + v % 100)))
        | _ => none
      else if (c :: cs).all Char.isAlpha then some none
      else none
    | [] => none

/-- Time-of-day token `HH:MM[:SS]` of an RFC 2822 date (1–2 digits per
field, as accepted by `email.utils.parsedate`). -/
def parseHms (w : String) : Option (ℕ × ℕ × ℕ) :=
  let ok : List Char → Bool := fun p => decide (1 ≤ p.length ∧ p.length ≤ 2)
  match splitChar ':' w.toList with
  | [hh, mm] =>
    match digitsToNat hh, digitsToNat mm with
    | some h, some mi => if ok hh ∧ ok mm then some (h, mi, 0) else none
    | _, _ => none
  | [hh, mm, ss] =>
    match digitsToNat hh, digitsToNat mm, digitsToNat ss with
    | some h, some mi, some s => if ok hh ∧ ok mm ∧ ok ss then some (h, mi, s) else none
    | _, _, _ => none
  | _ => none

/-- Model of the stdlib collaborator `email.utils.parsedate_to_datetime`,
restricted to the HTTP-date shape `[Day[,]] DD Mon YYYY HH:MM[:SS] [zone]`
with a named month and four-digit year.  Construction failures (out-of-range
fields) yield `none`, matching the exception path of the source. -/
def parsedateToDatetimeModel (s : String) : Option PyDateTime :=
  let ws := pyWords s
  let ws := match ws with
    | w0 :: rest =>
      if lastChar w0.toList = some ',' ∨ dayNames.contains (pyLower w0) then rest
      else ws
    | [] => ws
  let core : String → String → String → String → Option ℤ → Option PyDateTime :=
    fun dd mon yyyy time tz =>
      match digitsToNat dd.toList, monthNum mon, digitsToNat yyyy.toList,
          parseHms time with
      | some d, some m, some y, some (h, mi, sec) =>
        if decide (1 ≤ dd.toList.length ∧ dd.toList.length ≤ 2)
            ∧ yyyy.toList.length = 4
            ∧ validDate y m d ∧ validTime h mi sec then
          some ⟨y, m, d, h, mi, sec, tz⟩
        else none
      | _, _, _, _ => none
  match ws with
  | [dd, mon, yyyy, time] => core dd mon yyyy time none
  | [dd, mon, yyyy, time, zone] =>
    match parseZone zone with
    | some tz => core dd mon yyyy time tz
    | none => none
  | _ => none

/-- Days since 1970-01-01 of a proleptic-Gregorian civil date
(Hinnant's `days_from_civil`). -/
def daysFromCivil (y : ℤ) (m d : ℕ) : ℤ :=
  let y' := if m ≤ 2 then y - 1 else y
  let era := Int.fdiv y' 400
  let yoe := y' - era * 400
  let mp : ℤ := if m ≤ 2 then (m : ℤ) + 9 else (m : ℤ) - 3
  let doy := Int.fdiv (153 * mp + 2) 5 + (d : ℤ) - 1
  let doe := yoe * 365 + Int.fdiv yoe 4 - Int.fdiv yoe 100 + doy
  era * 146097 + doe - 719468

/-- The UTC instant a datetime denotes, as epoch seconds; a naive datetime is
taken as UTC, mirroring `parsed.replace(tzinfo=timezone.utc)` followed by
`astimezone(timezone.utc)` in the source. -/
def PyDateTime.epochUtcSeconds (dt : PyDateTime) : ℤ :=
  daysFromCivil dt.year dt.month dt.day * 86400
    + dt.hour * 3600 + dt.minute * 60 + dt.second
    - 60 * dt.tz_offset_minutes.getD 0

/-- The `Z → +00:00` normalisation `parse_retry_after` applies before the
RFC 3339 attempt. -/
def cleanedOf (candidate : String) : String :=
  if lastChar candidate.toList = some 'Z' then
    String.mk candidate.toList.dropLast ++ "+00:00"
  else candidate

/-- `parse_retry_after(header_value)`: strip, reject empty, attempt RFC 3339
on the `Z`-normalised value, fall back to HTTP-date on the stripped original,
reject if neither parses.  Returns the UTC instant (as epoch seconds) and the
format tag. -/
def parse_retry_after (header_value : String) : Except String (ℤ × String) :=
  let candidate := pyStrip header_value
  if candidate = "" then .error "Retry-After header is empty"
  else
    match fromisoformatModel (cleanedOf candidate) with
    | some dt => .ok (dt.epochUtcSeconds, "rfc3339")
    | none =>
      match parsedateToDatetimeModel candidate with
      | some dt => .ok (dt.epochUtcSeconds, "http-date")
      | none => .error ("Unable to parse Retry-After header: " ++ candidate)

/-! ## JSON payloads and generated Agile models
(src/python/atlassian/rest/gen/jira_agile_api.py)

JSON values as produced by `json.loads`: note that a JSON `null` becomes the
Python `None`, so `raw.get(k)` is `None` exactly when the key is absent or
its value is null — `dictGet` mirrors that.  `SerializationError` is carried
as its message string. -/

/-- A deserialized JSON payload (numbers restricted to integers, the only
kind these models accept). -/
inductive Json where
  | null
  | bool (b : Bool)
  | num (n : ℤ)
  | str (s : String)
  | arr (xs : List Json)
  | obj (fields : List (String × Json))

/-- `raw.get(k)` on a parsed JSON object: `None` for an absent key and for a
JSON `null` value alike. -/
def dictGet (kvs : List (String × Json)) (k : String) : Option Json :=
  match List.lookup k kvs with
  | some .null => none
  | other => other

/-- `_expect_dict`. -/
def expect_dict (j : Json) (path : String) : Except String (List (String × Json)) :=
  match j with
  | .obj kvs => .ok kvs
  | _ => .error ("Expected object at " ++ path)

/-- `_expect_list`. -/
def expect_list (j : Json) (path : String) : Except String (List Json) :=
  match j with
  | .arr xs => .ok xs
  | _ => .error ("Expected list at " ++ path)

/-- `_expect_str`. -/
def expect_str (j : Json) (path : String) : Except String String :=
  match j with
  | .str s => .ok s
  | _ => .error ("Expected string at " ++ path)

/-- `_expect_bool`. -/
def expect_bool (j : Json) (path : String) : Except String Bool :=
  match j with
  | .bool b => .ok b
  | _ => .error ("Expected boolean at " ++ path)

/-- `_expect_int`; a JSON boolean is rejected (the source guards
`isinstance(obj, bool)` because Python `bool` is an `int` subtype), which the
separate `Json.bool` constructor captures. -/
def expect_int (j : Json) (path : String) : Except String ℤ :=
  match j with
  | .num n => .ok n
  | _ => .error ("Expected integer at " ++ path)

/-- The `if raw.get(k) is not None: _expect_int(raw.get(k), path)` idiom. -/
def getOptInt (raw : List (String × Json)) (k p : String) :
    Except String (Option ℤ) :=
  match dictGet raw k with
  | none => .ok none
  | some v => (expect_int v p).map some

/-- The same idiom for string fields. -/
def getOptStr (raw : List (String × Json)) (k p : String) :
    Except String (Option String) :=
  match dictGet raw k with
  | none => .ok none
  | some v => (expect_str v p).map some

/-- The same idiom for boolean fields. -/
def getOptBool (raw : List (String × Json)) (k p : String) :
    Except String (Option Bool) :=
  match dictGet raw k with
  | none => .ok none
  | some v => (expect_bool v p).map some

/-- `Sprint` model from the Jira Agile REST API. -/
structure Sprint where
  id : Option ℤ
  name : Option String
  state : Option String
  start_date : Option String
  end_date : Option String
  complete_date : Option String
  origin_board_id : Option ℤ
  goal : Option String
deriving DecidableEq, Repr

/-- `Sprint.from_dict`. -/
def Sprint.from_dict (j : Json) (path : String) : Except String Sprint := do
  let raw ← expect_dict j path
  let sprint_id ← getOptInt raw "id" (path ++ ".id")
  let name ← getOptStr raw "name" (path ++ ".name")
  let state ← getOptStr raw "state" (path ++ ".state")
  let start_date ← getOptStr raw "startDate" (path ++ ".startDate")
  let end_date ← getOptStr raw "endDate" (path ++ ".endDate")
  let complete_date ← getOptStr raw "completeDate" (path ++ ".completeDate")
  let origin_board_id ← getOptInt raw "originBoardId" (path ++ ".originBoardId")
  let goal ← getOptStr raw "goal" (path ++ ".goal")
  return ⟨sprint_id, name, state, start_date, end_date, complete_date,
    origin_board_id, goal⟩

/-- Parse the elements of a `values` list, threading the element index into
the reported path as `path.values[idx]`. -/
def parseSprintValues (path : String) : ℕ → List Json → Except String (List Sprint)
  | _, [] => .ok []
  | i, x :: xs => do
    let s ← Sprint.from_dict x (path ++ ".values[" ++ toString i ++ "]")
    let rest ← parseSprintValues path (i + 1) xs
    return s :: rest

/-- `SprintPage` model: paginated list of sprints. -/
structure SprintPage where
  start_at : Option ℤ
  max_results : Option ℤ
  is_last : Option Bool
  values : List Sprint
deriving DecidableEq, Repr

/-- `SprintPage.from_dict`: a missing or null `values` key yields an empty
list; any present field of the wrong type raises a `SerializationError`
naming the offending path. -/
def SprintPage.from_dict (j : Json) (path : String) : Except String SprintPage := do
  let raw ← expect_dict j path
  let start_at ← getOptInt raw "startAt" (path ++ ".startAt")
  let max_results ← getOptInt raw "maxResults" (path ++ ".maxResults")
  let is_last ← getOptBool raw "isLast" (path ++ ".isLast")
  let values_list ← match dictGet raw "values" with
    | none => pure ([] : List Json)
    | some v => expect_list v (path ++ ".values")
  let values ← parseSprintValues path 0 values_list
  return ⟨start_at, max_results, is_last, values⟩

/-- `Board` model from the Jira Agile REST API. -/
structure Board where
  id : Option ℤ
  name : Option String
  board_type : Option String
deriving DecidableEq, Repr

/-- `Board.from_dict`. -/
def Board.from_dict (j : Json) (path : String) : Except String Board := do
  let raw ← expect_dict j path
  let board_id ← getOptInt raw "id" (path ++ ".id")
  let name ← getOptStr raw "name" (path ++ ".name")
  let board_type ← getOptStr raw "type" (path ++ ".type")
  return ⟨board_id, name, board_type⟩

/-- Parse the elements of a board `values` list. -/
def parseBoardValues (path : String) : ℕ → List Json → Except String (List Board)
  | _, [] => .ok []
  | i, x :: xs => do
    let b ← Board.from_dict x (path ++ ".values[" ++ toString i ++ "]")
    let rest ← parseBoardValues path (i + 1) xs
    return b :: rest

/-- `BoardPage` model: paginated list of boards. -/
structure BoardPage where
  start_at : Option ℤ
  max_results : Option ℤ
  is_last : Option Bool
  values : List Board
deriving DecidableEq, Repr

/-- `BoardPage.from_dict`, same shape handling as `SprintPage.from_dict`. -/
def BoardPage.from_dict (j : Json) (path : String) : Except String BoardPage := do
  let raw ← expect_dict j path
  let start_at ← getOptInt raw "startAt" (path ++ ".startAt")
  let max_results ← getOptInt raw "maxResults" (path ++ ".maxResults")
  let is_last ← getOptBool raw "isLast" (path ++ ".isLast")
  let values_list ← match dictGet raw "values" with
    | none => pure ([] : List Json)
    | some v => expect_list v (path ++ ".values")
  let values ← parseBoardValues path 0 values_list
  return ⟨start_at, max_results, is_last, values⟩

/-! ## Sprint mapper and the offset-based REST pagination iterator
(src/python/atlassian/rest/mappers/jira_sprints.py and
src/python/atlassian/rest/api/jira_sprints.py) -/

/-- Canonical `JiraSprint` (src/python/atlassian/canonical_models.py). -/
structure JiraSprint where
  id : String
  name : String
  state : String
  start_at : Option String
  end_at : Option String
  complete_at : Option String
deriving DecidableEq, Repr

/-- The strip-or-drop treatment `map_sprint` gives optional date strings. -/
def stripOpt (o : Option String) : Option String :=
  match o with
  | none => none
  | some v => if pyStrip v = "" then none else some (pyStrip v)

/-- `map_sprint`: requires `id`, a non-blank `name` and a non-blank `state`,
stringifies the id and strips the optional date fields; a `ValueError`
message is returned on the error side. -/
def map_sprint (sprint : Sprint) : Except String JiraSprint :=
  match sprint.id with
  | none => .error "sprint.id is required"
  | some sprint_id =>
    match sprint.name with
    | none => .error "sprint.name is required"
    | some name =>
      if pyStrip name = "" then .error "sprint.name is required"
      else
        match sprint.state with
        | none => .error "sprint.state is required"
        | some state =>
          if pyStrip state = "" then .error "sprint.state is required"
          else
            .ok ⟨toString sprint_id, pyStrip name, pyStrip state,
              stripOpt sprint.start_date, stripOpt sprint.end_date,
              stripOpt sprint.complete_date⟩

/-- Map a page's sprints in order as the generator yields them: the mapped
prefix up to the first failing element, plus that failure's message if any. -/
def mapSprintValues : List Sprint → List JiraSprint × Option String
  | [] => ([], none)
  | s :: rest =>
    match map_sprint s with
    | .error m => ([], some m)
    | .ok j =>
      let (js, e) := mapSprintValues rest
      (j :: js, e)

/-- Terminal status of a pagination run: normal completion, a raised
`SerializationError`, a raised `ValueError`, or fuel exhaustion (the model's
stand-in for an unbounded loop). -/
inductive RunOutcome where
  | done
  | failedSer (msg : String)
  | failedVal (msg : String)
  | outOfFuel
deriving DecidableEq, Repr

/-- Observable trace of a REST pagination run: the sprints yielded in order,
the number of page fetches performed, and the terminal status. -/
structure RestRun where
  items : List JiraSprint
  fetches : ℕ
  outcome : RunOutcome
deriving DecidableEq, Repr

/-- The `while True` loop of `iter_board_sprints_via_rest`: guard against a
repeated `startAt`, fetch and deserialize the page, yield the mapped values,
then stop on `isLast=true`, on a short page, or on an empty page (the latter
raising when `isLast=false` was declared), else advance the offset.  `fetch`
closes over the HTTP client, board id and state filter and returns the JSON
payload served for a `startAt` offset. -/
def restLoop (fetch : ℕ → Json) (page_size : ℕ) :
    ℕ → List ℕ → List JiraSprint → ℕ → ℕ → RestRun
  | _, _, acc, fetches, 0 => ⟨acc, fetches, .outOfFuel⟩
  | start_at, seen_start_at, acc, fetches, fuel + 1 =>
    if start_at ∈ seen_start_at then
      ⟨acc, fetches,
        .failedSer "Pagination startAt repeated; aborting to prevent infinite loop"⟩
    else
      let seen' := start_at :: seen_start_at
      match SprintPage.from_dict (fetch start_at) "data" with
      | .error msg => ⟨acc, fetches + 1, .failedSer msg⟩
      | .ok page =>
        let (mapped, mapErr) := mapSprintValues page.values
        let acc' := acc ++ mapped
        match mapErr with
        | some m => ⟨acc', fetches + 1, .failedVal m⟩
        | none =>
          if page.is_last = some true then
            ⟨acc', fetches + 1, .done⟩
          else if page.values.length < page_size then
            ⟨acc', fetches + 1, .done⟩
          else if page.values.length = 0 then
            if page.is_last = some false then
              ⟨acc', fetches + 1,
                .failedSer "Received empty page with isLast=false; cannot continue pagination"⟩
            else ⟨acc', fetches + 1, .done⟩
          else
            restLoop fetch page_size (start_at + page.values.length) seen'
              acc' (fetches + 1) fuel

/-- `iter_board_sprints_via_rest`, driven to exhaustion: validates
`page_size` and runs the loop from offset 0 with an empty seen-set.  (The
`board_id` and `state` validation and the request parameters only shape the
URL the `fetch` collaborator serves.) -/
def iter_board_sprints_via_rest (fetch : ℕ → Json) (page_size : ℕ)
    (fuel : ℕ) : RestRun :=
  if page_size = 0 then ⟨[], 0, .failedVal "page_size must be > 0"⟩
  else restLoop fetch page_size 0 [] [] 0 fuel

/-! ## Cursor-based GraphQL pagination
(src/python/atlassian/graph/api/jira_worklogs.py)

The transport and generated deserializer (`client.execute` plus
`api.parse_issue_worklogs_page`) are the caller-supplied page-fetch
collaborator of spec §4.4; `fetch` maps a cursor to the parsed connection.
The generated schema flags `PAGEINFO_HAS_END_CURSOR` and
`WORKLOGS_EDGE_HAS_CURSOR` are parameters `pic` and `ehc`.  Worklog nodes
are an opaque type `α`; the per-item `map_worklog` is the injected total
function `mapItem`. -/

/-- GraphQL connection `pageInfo`. -/
structure PageInfo where
  has_next_page : Bool
  end_cursor : Option String
deriving DecidableEq, Repr

/-- One connection edge: optional cursor and node. -/
structure GEdge (α : Type) where
  cursor : Option String
  node : α
deriving DecidableEq, Repr

/-- A parsed connection page. -/
structure GConn (α : Type) where
  edges : List (GEdge α)
  page_info : PageInfo
deriving DecidableEq, Repr

/-- Python truthiness of an optional string (`if cursor:`). -/
def optTruthy (o : Option String) : Bool :=
  match o with
  | some s => s ≠ ""
  | none => false

/-- First truthy cursor when walking `reversed(edges_cursors)`. -/
def firstTruthy : List (Option String) → Option String
  | [] => none
  | c :: cs =>
    match c with
    | some s => if s ≠ "" then some s else firstTruthy cs
    | none => firstTruthy cs

/-- `_next_after_from_pageinfo`: `None` when the page declares no next page;
else the truthy `end_cursor` when the schema exposes one, else the last
truthy edge cursor, else a `SerializationError`. -/
def next_after_from_pageinfo (has_next_page : Bool) (end_cursor : Option String)
    (pic ehc : Bool) (edges_cursors : List (Option String)) (path : String) :
    Except String (Option String) :=
  if has_next_page = false then .ok none
  else if pic ∧ optTruthy end_cursor then .ok end_cursor
  else if ehc then
    match firstTruthy edges_cursors.reverse with
    | some c => .ok (some c)
    | none => .error ("Pagination cursor missing for " ++ path)
  else .error ("Pagination cursor missing for " ++ path)

/-- Observable trace of a GraphQL pagination run. -/
structure GqlRun (β : Type) where
  items : List β
  fetches : ℕ
  outcome : RunOutcome
deriving DecidableEq, Repr

/-- The next cursor the loop would derive from the page served at `a`. -/
def nextAfterOf {α : Type} (fetch : Option String → GConn α) (pic ehc : Bool)
    (issue_key : String) (a : Option String) : Except String (Option String) :=
  next_after_from_pageinfo (fetch a).page_info.has_next_page
    (fetch a).page_info.end_cursor pic ehc
    ((fetch a).edges.map GEdge.cursor)
    ("jira.issue[" ++ issue_key ++ "].worklogs")

/-- The `while True` loop of `iter_issue_worklogs_via_graphql`: fetch the
page at the current cursor, yield its mapped nodes in order, compute the next
cursor, stop on `None`, fail on a cursor already in the seen-set, else record
it and continue. -/
def gqlLoop {α β : Type} (fetch : Option String → GConn α) (pic ehc : Bool)
    (issue_key : String) (mapItem : α → β) :
    Option String → Finset String → List β → ℕ → ℕ → GqlRun β
  | _, _, acc, fetches, 0 => ⟨acc, fetches, .outOfFuel⟩
  | after, seen_after, acc, fetches, fuel + 1 =>
    let conn := fetch after
    let acc' := acc ++ conn.edges.map (fun e => mapItem e.node)
    match nextAfterOf fetch pic ehc issue_key after with
    | .error m => ⟨acc', fetches + 1, .failedSer m⟩
    | .ok none => ⟨acc', fetches + 1, .done⟩
    | .ok (some c) =>
      if c ∈ seen_after then
        ⟨acc', fetches + 1,
          .failedSer "Pagination cursor repeated; aborting to prevent infinite loop"⟩
      else
        gqlLoop fetch pic ehc issue_key mapItem (some c) (insert c seen_after)
          acc' (fetches + 1) fuel

/-- `iter_issue_worklogs_via_graphql`, driven to exhaustion: starts at the
empty cursor with an empty seen-set. -/
def iter_issue_worklogs_via_graphql {α β : Type}
    (fetch : Option String → GConn α) (pic ehc : Bool) (issue_key : String)
    (mapItem : α → β) (fuel : ℕ) : GqlRun β :=
  gqlLoop fetch pic ehc issue_key mapItem none ∅ [] 0 fuel

/-! ## GraphQL operation errors and partial data
(src/python/atlassian/graph/api/jira_issues.py and
src/python/atlassian_graphql/errors.py) -/

/-- `GraphQLErrorItem` (src/python/atlassian_graphql/models.py). -/
structure GraphQLErrorItem where
  message : String
  path : Option Json
  extensions : Option Json
  locations : Option Json

/-- `GraphQLResult` (src/python/atlassian_graphql/models.py). -/
structure GraphQLResult where
  data : Option Json
  errors : Option (List GraphQLErrorItem)
  extensions : Option Json

/-- The error taxonomy a `get_issue_by_key` caller can observe:
`ValueError`, `SerializationError`, or `GraphQLOperationError` carrying the
error list and any partial data. -/
inductive ApiError where
  | valueErr (msg : String)
  | serialization (msg : String)
  | operation (errors : List GraphQLErrorItem) (partial_data : Option Json)

/-- Modelled from the spec: `GraphQLClient.execute`
(src/python/atlassian/graph/client.py is not under src/).  Per §4.3 step 6, a
response with `errors` but no `data` is escalated to an operation-level error
carrying the error list, a response with neither `data` nor `errors` is a
serialization error, and any response with `data` is returned for the
accessor to deserialize. -/
def GraphQLClient.execute (r : GraphQLResult) : Except ApiError GraphQLResult :=
  match r.data with
  | some _ => .ok r
  | none =>
    match r.errors with
    | some (e :: es) => .error (.operation (e :: es) none)
    | _ => .error (.serialization "Missing GraphQL data in response")

/-- `get_issue_by_key`: validates its arguments, executes the query, rejects
a missing `data`, deserializes via the generated parser (injected as `parse`,
since src/python/atlassian/graph/gen is not under src/), and on a
deserialization failure re-raises as a `GraphQLOperationError` carrying the
partial data when the response carried errors.  The final canonical mapping
is the injected `mapIssue`. -/
def get_issue_by_key {ι κ : Type} (cloud_id issue_key : String)
    (r : GraphQLResult) (parse : Json → Except String ι) (mapIssue : ι → κ) :
    Except ApiError κ :=
  if pyStrip cloud_id = "" then .error (.valueErr "cloud_id is required")
  else if pyStrip issue_key = "" then .error (.valueErr "issue_key is required")
  else
    match GraphQLClient.execute r with
    | .error e => .error e
    | .ok result =>
      match result.data with
      | none => .error (.serialization "Missing GraphQL data in response")
      | some d =>
        match parse d with
        | .ok issue => .ok (mapIssue issue)
        | .error exc =>
          match result.errors with
          | some (e :: es) => .error (.operation (e :: es) (some d))
          | _ => .error (.serialization exc)

/-! ## Credential construction from the environment
(src/python/atlassian/graph/api/jira_issues.py, `_auth_from_env`)

Environment variables are strings with `""` for an unset variable — every
use in the source is by Python truthiness, under which unset and empty
coincide.  `json.loads` is the injected collaborator `jsonParse`. -/

/-- The environment variables `_auth_from_env` reads. -/
structure AuthEnv where
  access_token : String
  refresh_token : String
  client_id : String
  client_secret : String
  email : String
  api_token : String
  cookies_json : String
deriving DecidableEq, Repr

/-- The credential variants `_auth_from_env` can construct. -/
inductive Auth where
  | oauthRefresh (client_id client_secret refresh_token : String)
  | bearer (token : String)
  | basic (email api_token : String)
  | cookie (pairs : List (String × String))
deriving DecidableEq, Repr

/-- All-string-valued entries of a parsed JSON object, if every value is a
string. -/
def strPairs : List (String × Json) → Option (List (String × String))
  | [] => some []
  | (k, .str v) :: rest =>
    match strPairs rest with
    | some ps => some ((k, v) :: ps)
    | none => none
  | _ => none

/-- Check `isinstance(cookies, dict)` with all string keys and values, and
extract the pairs. -/
def cookiePairs : Json → Option (List (String × String))
  | .obj kvs => strPairs kvs
  | _ => none

/-- `_auth_from_env`: refresh-token configuration wins; else a bearer token,
rejected when it equals the configured client secret after stripping; else
basic email/token; else cookies parsed from JSON; else no credentials. -/
def auth_from_env (jsonParse : String → Option Json) (env : AuthEnv) :
    Except String (Option Auth) :=
  if env.refresh_token ≠ "" ∧ env.client_id ≠ "" ∧ env.client_secret ≠ "" then
    .ok (some (.oauthRefresh env.client_id env.client_secret env.refresh_token))
  else if env.access_token ≠ "" then
    if env.client_secret ≠ "" ∧ pyStrip env.access_token = pyStrip env.client_secret then
      .error ("ATLASSIAN_OAUTH_ACCESS_TOKEN appears to be set to ATLASSIAN_CLIENT_SECRET; "
        ++ "set an OAuth access token (not the client secret).")
    else .ok (some (.bearer env.access_token))
  else if env.email ≠ "" ∧ env.api_token ≠ "" then
    .ok (some (.basic env.email env.api_token))
  else if env.cookies_json ≠ "" then
    match jsonParse env.cookies_json with
    | some j =>
      match cookiePairs j with
      | some pairs => .ok (some (.cookie pairs))
      | none => .ok none
    | none => .ok none
  else .ok none

/-! ## Concrete servers and fixtures used by the claim theorems -/

/-- JSON payload of one sprint with the given id. -/
def sprintJson (i : ℕ) : Json :=
  .obj [("id", .num i), ("name", .str "S"), ("state", .str "active")]

/-- JSON payload of a sprint page. -/
def sprintPageJson (first count : ℕ) (is_last : Bool) : Json :=
  .obj [("startAt", .num first), ("maxResults", .num 50),
        ("isLast", .bool is_last),
        ("values", .arr ((List.range' first count).map sprintJson))]

/-- A REST server returning three pages of 50, 50 and 7 sprints with
`isLast = false, false, true`. -/
def restThreePages (start_at : ℕ) : Json :=
  if start_at = 0 then sprintPageJson 0 50 false
  else if start_at = 50 then sprintPageJson 50 50 false
  else if start_at = 100 then sprintPageJson 100 7 true
  else .obj []

/-- A GraphQL server returning three pages of 50, 50 and 7 nodes with
`hasNextPage = true, true, false`. -/
def gqlThreePages (a : Option String) : GConn ℕ :=
  match a with
  | none => ⟨(List.range' 0 50).map (fun i => ⟨none, i⟩), ⟨true, some "c1"⟩⟩
  | some "c1" => ⟨(List.range' 50 50).map (fun i => ⟨none, i⟩), ⟨true, some "c2"⟩⟩
  | some "c2" => ⟨(List.range' 100 7).map (fun i => ⟨none, i⟩), ⟨false, none⟩⟩
  | some _ => ⟨[], ⟨false, none⟩⟩

/-- A GraphQL server that always claims a next page at the same cursor. -/
def gqlRepeatCursor (_ : Option String) : GConn ℕ :=
  ⟨[⟨none, 7⟩], ⟨true, some "c1"⟩⟩

/-- A REST page that is empty while explicitly declaring `isLast = false`. -/
def emptyNotLastPage : Json :=
  .obj [("startAt", .num 0), ("maxResults", .num 50), ("isLast", .bool false),
        ("values", .arr [])]

/-- A GraphQL error list with a single item. -/
def boomErrors : List GraphQLErrorItem :=
  [⟨"boom", none, none, none⟩]

/-- Partial data rich enough for the key to deserialize. -/
def goodIssueData : Json :=
  .obj [("key", .str "A-1")]

/-- A GraphQL response carrying both errors and deserializable data. -/
def cexResponse : GraphQLResult :=
  ⟨some goodIssueData, some boomErrors, none⟩

/-- A response carrying errors and `data = null`. -/
def errsNoDataResponse : GraphQLResult :=
  ⟨none, some boomErrors, none⟩

/-- A stand-in for the generated issue deserializer: requires a string
`key` field. -/
def parseKeyField (j : Json) : Except String String :=
  match j with
  | .obj kvs =>
    match dictGet kvs "key" with
    | some (.str s) => .ok s
    | _ => .error "Expected string at data.jira.issueByKey.key"
  | _ => .error "Expected object at data.jira.issueByKey"

/-- Environment in which the refresh-token path wins although the provided
access token is byte-identical to the client secret. -/
def c9Env : AuthEnv :=
  ⟨"sek", "r", "id", "sek", "", "", ""⟩

lemma TokenBucket.refill_locked_inv (b : TokenBucket) (now : ℚ)
    (hr : 0 ≤ b.refill_rate_per_sec) (h : b.Inv) :
    (b.refill_locked now).Inv := by
  obtain ⟨h0, hc⟩ := h
  unfold TokenBucket.refill_locked
  by_cases he : 0 < now - b.last_refill
  · simp only [he, if_pos]
    constructor
    · exact le_min (le_trans h0 hc)
        (by nlinarith)
    · exact min_le_left _ _
  · simp only [he, if_neg, not_false_iff]
    exact ⟨h0, hc⟩

lemma TokenBucket.refill_locked_capacity (b : TokenBucket) (now : ℚ) :
    (b.refill_locked now).capacity = b.capacity := by
  unfold TokenBucket.refill_locked
  by_cases he : 0 < now - b.last_refill <;> simp [he]

lemma TokenBucket.refill_locked_rate (b : TokenBucket) (now : ℚ) :
    (b.refill_locked now).refill_rate_per_sec = b.refill_rate_per_sec := by
  unfold TokenBucket.refill_locked
  by_cases he : 0 < now - b.last_refill <;> simp [he]

lemma TokenBucket.consumeLoop_inv (cost deadline mws : ℚ)
    (hcost : 0 < cost) :
    ∀ (fuel : ℕ) (b : TokenBucket) (t waited : ℚ),
      0 ≤ b.refill_rate_per_sec → b.Inv →
      ((TokenBucket.consumeLoop cost deadline mws b t waited fuel).state.1).Inv := by
  intro fuel
  induction fuel with
  | zero =>
    intro b t waited _ h
    simpa [TokenBucket.consumeLoop, ConsumeResult.state] using h
  | succ n ih =>
    intro b t waited hr h
    have hinv' : (b.refill_locked t).Inv := b.refill_locked_inv t hr h
    have hr' : 0 ≤ (b.refill_locked t).refill_rate_per_sec := by
      rw [b.refill_locked_rate t]; exact hr
    unfold TokenBucket.consumeLoop
    by_cases hge : cost ≤ (b.refill_locked t).tokens
    · simp only [hge, if_pos, ConsumeResult.state]
      refine ⟨?_, ?_⟩ <;> dsimp only
      · linarith [hinv'.1, hge]
      · linarith [hinv'.2, hcost.le]
    · simp only [hge, if_neg, not_false_iff]
      by_cases hrem : deadline - t ≤ 0 ∨
          (cost - (b.refill_locked t).tokens) / (b.refill_locked t).refill_rate_per_sec ≤ 0
      · simp only [hrem, if_pos, ConsumeResult.state]
        exact hinv'
      · simp only [hrem, if_neg, not_false_iff]
        exact ih (b.refill_locked t) _ _ hr' hinv'

lemma TokenBucket.consumeLoop_rate (cost deadline mws : ℚ) :
    ∀ (fuel : ℕ) (b : TokenBucket) (t waited : ℚ),
      ((TokenBucket.consumeLoop cost deadline mws b t waited fuel).state.1).refill_rate_per_sec
        = b.refill_rate_per_sec := by
  intro fuel
  induction fuel with
  | zero =>
    intro b t waited
    simp [TokenBucket.consumeLoop, ConsumeResult.state]
  | succ n ih =>
    intro b t waited
    unfold TokenBucket.consumeLoop
    by_cases hge : cost ≤ (b.refill_locked t).tokens
    · simp only [hge, if_pos, ConsumeResult.state]
      exact b.refill_locked_rate t
    · simp only [hge, if_neg, not_false_iff]
      by_cases hrem : deadline - t ≤ 0 ∨
          (cost - (b.refill_locked t).tokens) / (b.refill_locked t).refill_rate_per_sec ≤ 0
      · simp only [hrem, if_pos, ConsumeResult.state]
        exact b.refill_locked_rate t
      · simp only [hrem, if_neg, not_false_iff]
        rw [ih, b.refill_locked_rate t]

lemma TokenBucket.consume_inv (b : TokenBucket) (t cost mws : ℚ) (fuel : ℕ)
    (hr : 0 ≤ b.refill_rate_per_sec) (h : b.Inv) :
    ((TokenBucket.consume b t cost mws fuel).state.1).Inv := by
  unfold TokenBucket.consume
  by_cases hc : cost ≤ 0
  · simpa [hc, ConsumeResult.state] using h
  · simp only [hc, if_neg, not_false_iff]
    exact TokenBucket.consumeLoop_inv cost (t + mws) mws (lt_of_not_le hc)
      fuel b t 0 hr h

lemma TokenBucket.consume_rate (b : TokenBucket) (t cost mws : ℚ) (fuel : ℕ) :
    ((TokenBucket.consume b t cost mws fuel).state.1).refill_rate_per_sec
      = b.refill_rate_per_sec := by
  unfold TokenBucket.consume
  by_cases hc : cost ≤ 0
  · simp [hc, ConsumeResult.state]
  · simp only [hc, if_neg, not_false_iff]
    exact TokenBucket.consumeLoop_rate cost (t + mws) mws fuel b t 0

lemma TokenBucket.consumeLoop_err_fields (cost deadline mws : ℚ) :
    ∀ (fuel : ℕ) (b : TokenBucket) (t waited : ℚ) (e : LocalRateLimitError)
      (b' : TokenBucket) (t' : ℚ), t ≤ deadline →
      TokenBucket.consumeLoop cost deadline mws b t waited fuel = .err e b' t' →
      e = ⟨cost, (cost - b'.tokens) / b'.refill_rate_per_sec, mws⟩
        ∧ b'.tokens < cost ∧ t' ≤ deadline
        ∧ b'.refill_rate_per_sec = b.refill_rate_per_sec := by
  intro fuel
  induction fuel with
  | zero =>
    intro b t waited e b' t' ht h
    simp [TokenBucket.consumeLoop] at h
  | succ n ih =>
    intro b t waited e b' t' ht h
    simp only [TokenBucket.consumeLoop] at h
    split at h
    · exact absurd h (by simp)
    · next hge =>
      split at h
      · next hrem =>
        cases h
        refine ⟨rfl, lt_of_not_le hge, ht, b.refill_locked_rate t⟩
      · next hrem =>
        have hstep :
            t + min ((cost - (b.refill_locked t).tokens)
                / (b.refill_locked t).refill_rate_per_sec) (deadline - t)
              ≤ deadline := by
          have hmr := min_le_right ((cost - (b.refill_locked t).tokens)
            / (b.refill_locked t).refill_rate_per_sec) (deadline - t)
          linarith
        have hrec := ih (b.refill_locked t) _ _ e b' t' hstep h
        exact ⟨hrec.1, hrec.2.1, hrec.2.2.1,
          by rw [hrec.2.2.2, b.refill_locked_rate t]⟩

lemma TokenBucket.consumeLoop_ok_time (cost deadline mws : ℚ) :
    ∀ (fuel : ℕ) (b : TokenBucket) (t waited w : ℚ) (b'' : TokenBucket)
      (t'' : ℚ), t ≤ deadline →
      TokenBucket.consumeLoop cost deadline mws b t waited fuel = .ok w b'' t'' →
      t'' ≤ deadline := by
  intro fuel
  induction fuel with
  | zero =>
    intro b t waited w b'' t'' ht h
    simp [TokenBucket.consumeLoop] at h
  | succ n ih =>
    intro b t waited w b'' t'' ht h
    simp only [TokenBucket.consumeLoop] at h
    split at h
    · cases h
      exact ht
    · split at h
      · exact absurd h (by simp)
      · next hge hrem =>
        have hstep :
            t + min ((cost - (b.refill_locked t).tokens)
                / (b.refill_locked t).refill_rate_per_sec) (deadline - t)
              ≤ deadline := by
          have hmr := min_le_right ((cost - (b.refill_locked t).tokens)
            / (b.refill_locked t).refill_rate_per_sec) (deadline - t)
          linarith
        exact ih (b.refill_locked t) _ _ w b'' t'' hstep h

lemma TokenBucket.consumeLoop_no_ok (cost deadline mws : ℚ) :
    ∀ (fuel : ℕ) (b : TokenBucket) (t waited : ℚ),
      0 ≤ b.refill_rate_per_sec → b.Inv → b.capacity < cost →
      ∀ (w : ℚ) (b' : TokenBucket) (t' : ℚ),
        TokenBucket.consumeLoop cost deadline mws b t waited fuel ≠ .ok w b' t' := by
  intro fuel
  induction fuel with
  | zero =>
    intro b t waited _ _ _ w b' t' h
    simp [TokenBucket.consumeLoop] at h
  | succ n ih =>
    intro b t waited hr hinv hcap w b' t' h
    have hinv' : (b.refill_locked t).Inv := b.refill_locked_inv t hr hinv
    have hcap' : (b.refill_locked t).capacity < cost := by
      rw [b.refill_locked_capacity t]; exact hcap
    have hge : ¬ cost ≤ (b.refill_locked t).tokens := by
      intro hle
      exact absurd (le_trans hle hinv'.2) (not_le.mpr hcap')
    simp only [TokenBucket.consumeLoop] at h
    split at h
    · exact hge (by assumption)
    · split at h
      · exact absurd h (by simp)
      · exact ih (b.refill_locked t) _ _
          (by rw [b.refill_locked_rate t]; exact hr) hinv' hcap' w b' t' h

lemma TokenBucket.consumeSeq_fold_inv :
    ∀ (calls : List (ℚ × ℚ × ℕ)) (st : TokenBucket × ℚ),
      st.1.Inv → 0 ≤ st.1.refill_rate_per_sec →
      ((calls.foldl TokenBucket.consumeSeq st).1).Inv := by
  intro calls
  induction calls with
  | nil => intro st h _; simpa using h
  | cons c rest ih =>
    intro st h hr
    simp only [List.foldl_cons]
    exact ih (TokenBucket.consumeSeq st c)
      (TokenBucket.consume_inv st.1 st.2 c.1 c.2.1 c.2.2 hr h)
      (by
        show (0 : ℚ) ≤ ((TokenBucket.consume st.1 st.2 c.1 c.2.1 c.2.2).state.1).refill_rate_per_sec
        rw [TokenBucket.consume_rate]
        exact hr)

/-- C1: for every `TokenBucket` constructed with positive capacity and refill
rate and every sequence of `consume(cost, maxWaitSeconds)` calls, the token
count satisfies `0 ≤ tokens ≤ capacity` after any such sequence (so at every
observation point): refill clamps to capacity and a deduction happens only
when `tokens ≥ cost`.  This holds for arbitrary costs, in particular for
`cost ≤ capacity` as the claim assumes. -/
theorem c1_token_bucket_invariant (capacity rate t0 : ℚ)
    (hcap : 0 < capacity) (hrate : 0 < rate) (calls : List (ℚ × ℚ × ℕ)) :
    TokenBucket.Inv
      ((calls.foldl TokenBucket.consumeSeq (TokenBucket.init capacity rate t0, t0)).1) := by
  refine TokenBucket.consumeSeq_fold_inv calls _ ?_ ?_
  · exact ⟨le_of_lt hcap, le_refl _⟩
  · exact le_of_lt hrate

/-- Witness for C1 at `capacity=10, rate=5` and the call sequence
`[consume(3, 1)]`. -/
theorem c1_token_bucket_invariant_witness :
    (0 : ℚ) < 10 ∧ (0 : ℚ) < 5 ∧
      TokenBucket.Inv
        (([((3 : ℚ), (1 : ℚ), (5 : ℕ))].foldl TokenBucket.consumeSeq
          (TokenBucket.init 10 5 0, 0)).1) :=
  ⟨by norm_num, by norm_num,
    c1_token_bucket_invariant 10 5 0 (by norm_num) (by norm_num)
      [((3 : ℚ), (1 : ℚ), (5 : ℕ))]⟩


lemma TokenBucket.consumeLoop_sleep_to_deadline (cost d mws : ℚ)
    (b : TokenBucket) (t waited : ℚ) (f : ℕ)
    (h1 : ¬ cost ≤ (b.refill_locked t).tokens)
    (hrem : 0 < d - t)
    (hlw : 0 < (cost - (b.refill_locked t).tokens)
      / (b.refill_locked t).refill_rate_per_sec)
    (hmin : d - t ≤ (cost - (b.refill_locked t).tokens)
      / (b.refill_locked t).refill_rate_per_sec)
    (h2 : ¬ cost ≤ ((b.refill_locked t).refill_locked d).tokens) :
    TokenBucket.consumeLoop cost d mws b t waited (f + 2)
      = .err ⟨cost,
            (cost - ((b.refill_locked t).refill_locked d).tokens)
              / ((b.refill_locked t).refill_locked d).refill_rate_per_sec,
            mws⟩
          ((b.refill_locked t).refill_locked d) d := by
  show TokenBucket.consumeLoop cost d mws b t waited ((f + 1) + 1) = _
  simp only [TokenBucket.consumeLoop]
  rw [if_neg h1]
  rw [if_neg (by push_neg; exact ⟨by linarith, by linarith⟩ :
    ¬ (d - t ≤ 0 ∨ (cost - (b.refill_locked t).tokens)
        / (b.refill_locked t).refill_rate_per_sec ≤ 0))]
  rw [min_eq_right hmin]
  rw [show t + (d - t) = d from by ring]
  rw [if_neg h2]
  rw [if_pos (Or.inl (by simp : d - d ≤ 0))]

lemma TokenBucket.consume_overdraft_trace (t0 W : ℚ) (hW : 0 < W)
    (hle : W ≤ 2 / 5) (f : ℕ) :
    TokenBucket.consume (TokenBucket.init 10 5 t0) t0 12 W (f + 2)
      = .err ⟨12, 2 / 5, W⟩ ⟨10, 5, 10, t0 + W⟩ (t0 + W) := by
  have e1 : TokenBucket.refill_locked ⟨10, 5, 10, t0⟩ t0 = ⟨10, 5, 10, t0⟩ := by
    unfold TokenBucket.refill_locked
    simp
  have e2 : TokenBucket.refill_locked ⟨10, 5, 10, t0⟩ (t0 + W) = ⟨10, 5, 10, t0 + W⟩ := by
    simp only [TokenBucket.refill_locked, add_sub_cancel_left, hW, if_true]
    rw [min_eq_left (by nlinarith : (10 : ℚ) ≤ 10 + W * 5)]
  rw [show TokenBucket.init 10 5 t0 = (⟨10, 5, 10, t0⟩ : TokenBucket) from rfl]
  unfold TokenBucket.consume
  rw [if_neg (by norm_num : ¬ (12 : ℚ) ≤ 0)]
  have h := TokenBucket.consumeLoop_sleep_to_deadline 12 (t0 + W) W
    ⟨10, 5, 10, t0⟩ t0 0 f
    (by rw [e1]; norm_num)
    (by rw [add_sub_cancel_left]; exact hW)
    (by rw [e1]; norm_num)
    (by rw [e1, add_sub_cancel_left]; norm_num; exact hle)
    (by rw [e1, e2]; norm_num)
  rw [e1, e2] at h
  norm_num at h
  exact h

lemma TokenBucket.consume_halfsec_trace (f : ℕ) :
    TokenBucket.consume ⟨10, 5, 0, 0⟩ 0 4 (1 / 2) (f + 2)
      = .err ⟨4, 3 / 10, 1 / 2⟩ ⟨10, 5, 5 / 2, 1 / 2⟩ (1 / 2) := by
  have e1 : TokenBucket.refill_locked ⟨10, 5, 0, 0⟩ 0 = ⟨10, 5, 0, 0⟩ := by
    unfold TokenBucket.refill_locked
    simp
  have e2 : TokenBucket.refill_locked ⟨10, 5, 0, 0⟩ (1 / 2) = ⟨10, 5, 5 / 2, 1 / 2⟩ := by
    simp only [TokenBucket.refill_locked]
    norm_num
  unfold TokenBucket.consume
  rw [if_neg (by norm_num : ¬ (4 : ℚ) ≤ 0)]
  rw [show (0 : ℚ) + 1 / 2 = 1 / 2 from by norm_num]
  have h := TokenBucket.consumeLoop_sleep_to_deadline 4 (1 / 2) (1 / 2)
    ⟨10, 5, 0, 0⟩ 0 0 f
    (by rw [e1]; norm_num)
    (by norm_num)
    (by rw [e1]; norm_num)
    (by rw [e1]; norm_num)
    (by rw [e1, e2]; norm_num)
  rw [e1, e2] at h
  norm_num at h
  exact h

/-- C4 counterexample: with `capacity=10, refillRate=5`, a full bucket, a
deterministic clock and `maxWaitSeconds = 0.4 ≥ 0.4`, `consume(cost=12)`
does NOT wait 0.4s and succeed: it raises a local rate-limit error, because
refill clamps tokens at `capacity = 10 < 12`. -/
theorem c4_counterexample :
    (2 : ℚ) / 5 ≤ 2 / 5 ∧
      TokenBucket.consume (TokenBucket.init 10 5 0) 0 12 (2 / 5) 2
        = .err ⟨12, 2 / 5, 2 / 5⟩ ⟨10, 5, 10, 2 / 5⟩ (2 / 5) := by
  refine ⟨le_refl _, ?_⟩
  have h := TokenBucket.consume_overdraft_trace 0 (2 / 5) (by norm_num)
    (le_refl _) 0
  norm_num at h
  exact h

/-- C4 amended: `consume(cost=12, maxWaitSeconds)` issued immediately on a
full `capacity=10, refillRate=5` bucket (deterministic injected clock and
sleeper) can never succeed for any `maxWaitSeconds`, because the clamped
refill keeps `tokens ≤ capacity = 10 < 12`; for `maxWaitSeconds ≤ 0.4` it
sleeps `maxWaitSeconds` once and then fails with a local rate-limit error
carrying the estimated cost 12, the computed wait 0.4, and the configured
max wait.  (For larger `maxWaitSeconds` it likewise fails once the deadline
is exhausted, as the counterexample-adjacent trace at `maxWaitSeconds=0.4`
and the no-success conjunct show.) -/
theorem c4_amended_cost_exceeds_capacity (t0 W : ℚ) (fuel : ℕ) (hW : 0 < W) :
    (∀ (w : ℚ) (b' : TokenBucket) (t' : ℚ),
        TokenBucket.consume (TokenBucket.init 10 5 t0) t0 12 W fuel ≠ .ok w b' t')
    ∧ (W ≤ 2 / 5 → ∀ f : ℕ,
        TokenBucket.consume (TokenBucket.init 10 5 t0) t0 12 W (f + 2)
          = .err ⟨12, 2 / 5, W⟩ ⟨10, 5, 10, t0 + W⟩ (t0 + W)) := by
  constructor
  · intro w b' t'
    unfold TokenBucket.consume
    rw [if_neg (by norm_num : ¬ (12 : ℚ) ≤ 0)]
    exact TokenBucket.consumeLoop_no_ok 12 (t0 + W) W fuel _ t0 0
      (by norm_num [TokenBucket.init])
      (by constructor <;> norm_num [TokenBucket.init])
      (by norm_num [TokenBucket.init]) w b' t'
  · intro hle f
    exact TokenBucket.consume_overdraft_trace t0 W hW hle f

/-- Witness for C4's amended statement at `t0 = 0, maxWaitSeconds = 1/5`. -/
theorem c4_amended_cost_exceeds_capacity_witness :
    (0 : ℚ) < 1 / 5 ∧ (1 : ℚ) / 5 ≤ 2 / 5 ∧
      TokenBucket.consume (TokenBucket.init 10 5 0) 0 12 (1 / 5) 7
        ≠ .ok 0 (TokenBucket.init 10 5 0) 0 ∧
      TokenBucket.consume (TokenBucket.init 10 5 0) 0 12 (1 / 5) (0 + 2)
        = .err ⟨12, 2 / 5, 1 / 5⟩ ⟨10, 5, 10, 0 + 1 / 5⟩ (0 + 1 / 5) :=
  ⟨by norm_num, by norm_num,
    (c4_amended_cost_exceeds_capacity 0 (1 / 5) 7 (by norm_num)).1 0 _ 0,
    (c4_amended_cost_exceeds_capacity 0 (1 / 5) 7 (by norm_num)).2 (by norm_num) 0⟩

/-- C5: `consume(0, maxWait)` is a no-op returning a zero wait with the
bucket and clock unchanged; whenever `consume` fails it fails with a local
rate-limit error carrying the estimated cost, the computed positive wait
`(cost - tokens) / rate`, and the configured max wait, and it does so no
later than the deadline `t + maxWait` computed once at entry; when it
succeeds it has likewise never slept past that deadline. -/
theorem c5_consume_no_op_and_bounded_refusal (b : TokenBucket)
    (t cost mws : ℚ) (fuel : ℕ) (hr : 0 < b.refill_rate_per_sec)
    (hW : 0 ≤ mws) :
    (TokenBucket.consume b t 0 mws fuel = .ok 0 b t)
    ∧ (∀ (e : LocalRateLimitError) (b' : TokenBucket) (t' : ℚ),
        TokenBucket.consume b t cost mws fuel = .err e b' t' →
        e.estimated_cost = cost
          ∧ e.wait_seconds = (cost - b'.tokens) / b'.refill_rate_per_sec
          ∧ 0 < e.wait_seconds
          ∧ e.max_wait_seconds = mws
          ∧ t' ≤ t + mws)
    ∧ (∀ (w : ℚ) (b'' : TokenBucket) (t'' : ℚ),
        TokenBucket.consume b t cost mws fuel = .ok w b'' t'' → t'' ≤ t + mws) := by
  refine ⟨?_, ?_, ?_⟩
  · unfold TokenBucket.consume
    rw [if_pos (le_refl (0 : ℚ))]
  · intro e b' t' h
    unfold TokenBucket.consume at h
    by_cases hc : cost ≤ 0
    · rw [if_pos hc] at h
      exact absurd h (by simp)
    · rw [if_neg hc] at h
      have hfields := TokenBucket.consumeLoop_err_fields cost (t + mws) mws
        fuel b t 0 e b' t' (by linarith) h
      have hrate' : 0 < b'.refill_rate_per_sec := by
        rw [hfields.2.2.2]; exact hr
      refine ⟨by rw [hfields.1], by rw [hfields.1], ?_, by rw [hfields.1],
        hfields.2.2.1⟩
      rw [hfields.1]
      exact div_pos (by linarith [hfields.2.1]) hrate'
  · intro w b'' t'' h
    unfold TokenBucket.consume at h
    by_cases hc : cost ≤ 0
    · rw [if_pos hc] at h
      cases h
      linarith
    · rw [if_neg hc] at h
      exact TokenBucket.consumeLoop_ok_time cost (t + mws) mws fuel b t 0
        w b'' t'' (by linarith) h

/-- Witness for C5 at a concrete bucket, cost and max wait where `consume`
refuses at the deadline. -/
theorem c5_consume_no_op_and_bounded_refusal_witness :
    (0 : ℚ) < 5 ∧ (0 : ℚ) ≤ 1 / 2 ∧
      TokenBucket.consume ⟨10, 5, 0, 0⟩ 0 0 (1 / 2) 5 = .ok 0 ⟨10, 5, 0, 0⟩ 0 ∧
      ((⟨4, 3 / 10, 1 / 2⟩ : LocalRateLimitError).estimated_cost = 4
        ∧ (⟨4, 3 / 10, 1 / 2⟩ : LocalRateLimitError).wait_seconds
            = (4 - (⟨10, 5, 5 / 2, 1 / 2⟩ : TokenBucket).tokens)
              / (⟨10, 5, 5 / 2, 1 / 2⟩ : TokenBucket).refill_rate_per_sec
        ∧ 0 < (⟨4, 3 / 10, 1 / 2⟩ : LocalRateLimitError).wait_seconds
        ∧ (⟨4, 3 / 10, 1 / 2⟩ : LocalRateLimitError).max_wait_seconds = 1 / 2
        ∧ (1 : ℚ) / 2 ≤ 0 + 1 / 2) :=
  ⟨by norm_num, by norm_num,
    (c5_consume_no_op_and_bounded_refusal ⟨10, 5, 0, 0⟩ 0 4 (1 / 2) 5
      (by norm_num) (by norm_num)).1,
    (c5_consume_no_op_and_bounded_refusal ⟨10, 5, 0, 0⟩ 0 4 (1 / 2) 5
      (by norm_num) (by norm_num)).2.1 ⟨4, 3 / 10, 1 / 2⟩ ⟨10, 5, 5 / 2, 1 / 2⟩
      (1 / 2) (TokenBucket.consume_halfsec_trace 3)⟩

/-- C6: `parse_retry_after` attempts RFC 3339 parsing first, falls back to
HTTP-date parsing, and errors when neither form parses; the two header
values `Wed, 21 Oct 2025 07:28:00 GMT` and `2025-10-21T07:28:00Z` both parse
successfully and denote the same UTC instant. -/
theorem c6_parse_retry_after_formats :
    (∃ t : ℤ,
        parse_retry_after "Wed, 21 Oct 2025 07:28:00 GMT" = .ok (t, "http-date")
        ∧ parse_retry_after "2025-10-21T07:28:00Z" = .ok (t, "rfc3339"))
    ∧ (∀ (hv : String) (dt : PyDateTime),
        fromisoformatModel (cleanedOf (pyStrip hv)) = some dt →
        parse_retry_after hv = .ok (dt.epochUtcSeconds, "rfc3339"))
    ∧ (∀ (hv : String) (dt : PyDateTime),
        fromisoformatModel (cleanedOf (pyStrip hv)) = none →
        parsedateToDatetimeModel (pyStrip hv) = some dt →
        parse_retry_after hv = .ok (dt.epochUtcSeconds, "http-date"))
    ∧ (∀ hv : String,
        fromisoformatModel (cleanedOf (pyStrip hv)) = none →
        parsedateToDatetimeModel (pyStrip hv) = none →
        ∃ m, parse_retry_after hv = .error m) := by
  refine ⟨⟨1761031680, by rfl, by rfl⟩, ?_, ?_, ?_⟩
  · intro hv dt h
    by_cases he : pyStrip hv = ""
    · rw [he, show fromisoformatModel (cleanedOf "") = none from rfl] at h
      exact absurd h (by simp)
    · simp only [parse_retry_after]
      rw [if_neg he, h]
  · intro hv dt hiso hhttp
    by_cases he : pyStrip hv = ""
    · rw [he, show parsedateToDatetimeModel "" = none from rfl] at hhttp
      exact absurd hhttp (by simp)
    · simp only [parse_retry_after]
      rw [if_neg he, hiso, hhttp]
  · intro hv hiso hhttp
    by_cases he : pyStrip hv = ""
    · exact ⟨"Retry-After header is empty", by simp only [parse_retry_after]; rw [if_pos he]⟩
    · refine ⟨"Unable to parse Retry-After header: " ++ pyStrip hv, ?_⟩
      simp only [parse_retry_after]
      rw [if_neg he, hiso, hhttp]

/-- Witness for C6's fallback clause at the HTTP-date header value. -/
theorem c6_parse_retry_after_formats_witness :
    fromisoformatModel (cleanedOf (pyStrip "Wed, 21 Oct 2025 07:28:00 GMT")) = none
    ∧ parsedateToDatetimeModel (pyStrip "Wed, 21 Oct 2025 07:28:00 GMT")
        = some ⟨2025, 10, 21, 7, 28, 0, some 0⟩
    ∧ parse_retry_after "Wed, 21 Oct 2025 07:28:00 GMT"
        = .ok ((⟨2025, 10, 21, 7, 28, 0, some 0⟩ : PyDateTime).epochUtcSeconds,
            "http-date") :=
  ⟨by rfl, by rfl,
    c6_parse_retry_after_formats.2.2.1 "Wed, 21 Oct 2025 07:28:00 GMT"
      ⟨2025, 10, 21, 7, 28, 0, some 0⟩ (by rfl) (by rfl)⟩

/-- C2 (behaviour at the claim's failing input): a fetched page that is
empty while explicitly declaring `isLast=false` does NOT fail with a
serialization error — the `len(values) < page_size` check precedes the
empty-page check in `iter_board_sprints_via_rest`, so with any positive
`page_size` the run silently ends in the Done state after one fetch, and the
`"Received empty page with isLast=false"` raise is unreachable. -/
theorem c2_empty_page_not_last_silently_done :
    iter_board_sprints_via_rest (fun _ => emptyNotLastPage) 50 10 = ⟨[], 1, .done⟩
    ∧ iter_board_sprints_via_rest (fun _ => emptyNotLastPage) 1 10 = ⟨[], 1, .done⟩ :=
  ⟨rfl, rfl⟩

/-- C8: draining three consecutive pages of 50, 50 and 7 items whose
has-more signal is `true, true, false` yields exactly 107 items in the
server's original order, performs exactly three page fetches, and ends in
the Done state — for the cursor-based GraphQL iterator and for the
offset-based REST iterator alike. -/
theorem c8_three_page_runs :
    iter_issue_worklogs_via_graphql gqlThreePages true true "KEY-1" id 5
      = ⟨List.range 107, 3, .done⟩
    ∧ iter_board_sprints_via_rest restThreePages 50 10
      = ⟨(List.range 107).map
          (fun i => ⟨toString i, "S", "active", none, none, none⟩), 3, .done⟩ :=
  ⟨rfl, rfl⟩

/-- C10: `SprintPage.from_dict` and `BoardPage.from_dict` are total over
missing fields — an absent or null `values` key yields a page with an empty
values list, which the pagination iterator then treats as a final page,
ending the run without error — while any present field of the wrong type
(non-list `values`, non-boolean `isLast`, non-integer `startAt` or
`maxResults` — a boolean is rejected as an integer — or a malformed element
inside `values`) raises a `SerializationError` naming the offending path. -/
theorem c10_from_dict_total_over_missing_fields :
    SprintPage.from_dict (.obj []) "data" = .ok ⟨none, none, none, []⟩
    ∧ SprintPage.from_dict
        (.obj [("startAt", .num 0), ("maxResults", .num 50), ("isLast", .bool false)])
        "data" = .ok ⟨some 0, some 50, some false, []⟩
    ∧ SprintPage.from_dict
        (.obj [("startAt", .num 0), ("isLast", .bool true), ("values", .null)])
        "data" = .ok ⟨some 0, none, some true, []⟩
    ∧ SprintPage.from_dict (.obj [("values", .num 3)]) "data"
        = .error "Expected list at data.values"
    ∧ SprintPage.from_dict (.obj [("isLast", .num 1)]) "data"
        = .error "Expected boolean at data.isLast"
    ∧ SprintPage.from_dict (.obj [("startAt", .str "x")]) "data"
        = .error "Expected integer at data.startAt"
    ∧ SprintPage.from_dict (.obj [("maxResults", .bool true)]) "data"
        = .error "Expected integer at data.maxResults"
    ∧ SprintPage.from_dict (.obj [("values", .arr [Json.num 1])]) "data"
        = .error "Expected object at data.values[0]"
    ∧ SprintPage.from_dict (.obj [("values", .arr [Json.obj [("id", .str "x")]])])
        "data" = .error "Expected integer at data.values[0].id"
    ∧ BoardPage.from_dict (.obj []) "data" = .ok ⟨none, none, none, []⟩
    ∧ BoardPage.from_dict (.obj [("values", .bool false)]) "data"
        = .error "Expected list at data.values"
    ∧ BoardPage.from_dict (.obj [("isLast", .str "no")]) "data"
        = .error "Expected boolean at data.isLast"
    ∧ iter_board_sprints_via_rest (fun _ => .obj [("startAt", .num 0)]) 50 10
        = ⟨[], 1, .done⟩ :=
  ⟨rfl, rfl, rfl, rfl, rfl, rfl, rfl, rfl, rfl, rfl, rfl, rfl, rfl⟩

lemma gqlLoop_no_hang_bound {α β : Type} (fetch : Option String → GConn α)
    (pic ehc : Bool) (key : String) (mapItem : α → β) (S : Finset String)
    (hS : ∀ a c, nextAfterOf fetch pic ehc key a = .ok (some c) → c ∈ S) :
    ∀ (fuel : ℕ) (after : Option String) (seen : Finset String)
      (acc : List β) (f : ℕ), seen ⊆ S → S.card < fuel + seen.card →
      (gqlLoop fetch pic ehc key mapItem after seen acc f fuel).outcome ≠ .outOfFuel
      ∧ (gqlLoop fetch pic ehc key mapItem after seen acc f fuel).fetches
          ≤ f + (S.card - seen.card) + 1 := by
  intro fuel
  induction fuel with
  | zero =>
    intro after seen acc f hsub hlt
    have := Finset.card_le_card hsub
    omega
  | succ n ih =>
    intro after seen acc f hsub hlt
    cases hna : nextAfterOf fetch pic ehc key after with
    | error m =>
      simp only [gqlLoop, hna]
      exact ⟨by simp, by omega⟩
    | ok o =>
      cases o with
      | none =>
        simp only [gqlLoop, hna]
        exact ⟨by simp, by omega⟩
      | some c =>
        have hcS : c ∈ S := hS after c hna
        by_cases hmem : c ∈ seen
        · simp only [gqlLoop, hna, if_pos hmem]
          exact ⟨by simp, by omega⟩
        · simp only [gqlLoop, hna, if_neg hmem]
          have hsub' : insert c seen ⊆ S := Finset.insert_subset hcS hsub
          have hcard : (insert c seen).card = seen.card + 1 :=
            Finset.card_insert_of_not_mem hmem
          have hseenlt : seen.card < S.card :=
            Finset.card_lt_card (Finset.ssubset_iff_of_subset hsub |>.mpr ⟨c, hcS, hmem⟩)
          have hrec := ih (some c) (insert c seen) (acc ++ (fetch after).edges.map
            (fun e => mapItem e.node)) (f + 1) hsub' (by omega)
          exact ⟨hrec.1, by omega⟩

/-- C3: for every pagination run, a next cursor or offset that was already
used in the same run makes the iterator raise a serialization error; and the
cursor-based iterator never hangs — whenever the server's next cursors are
drawn from a finite set `S`, a fuel budget above `S.card` is never exhausted
and at most `S.card + 1` page fetches are performed, so a server that
repeats a cursor cannot force more than a bounded number of fetches. -/
theorem c3_repeated_cursor_fails_and_bounded {α β : Type}
    (fetch : Option String → GConn α) (pic ehc : Bool) (key : String)
    (mapItem : α → β) (S : Finset String) (fuel : ℕ)
    (hS : ∀ a c, nextAfterOf fetch pic ehc key a = .ok (some c) → c ∈ S)
    (hfuel : S.card < fuel) :
    ((iter_issue_worklogs_via_graphql fetch pic ehc key mapItem fuel).outcome
        ≠ .outOfFuel
      ∧ (iter_issue_worklogs_via_graphql fetch pic ehc key mapItem fuel).fetches
          ≤ S.card + 1)
    ∧ (∀ (after : Option String) (seen : Finset String) (acc : List β)
        (f n : ℕ) (c : String),
        nextAfterOf fetch pic ehc key after = .ok (some c) → c ∈ seen →
        gqlLoop fetch pic ehc key mapItem after seen acc f (n + 1)
          = ⟨acc ++ (fetch after).edges.map (fun e => mapItem e.node), f + 1,
             .failedSer "Pagination cursor repeated; aborting to prevent infinite loop"⟩)
    ∧ (∀ (rfetch : ℕ → Json) (ps s : ℕ) (seen : List ℕ) (acc : List JiraSprint)
        (f n : ℕ), s ∈ seen →
        restLoop rfetch ps s seen acc f (n + 1)
          = ⟨acc, f,
             .failedSer "Pagination startAt repeated; aborting to prevent infinite loop"⟩) := by
  refine ⟨?_, ?_, ?_⟩
  · have h := gqlLoop_no_hang_bound fetch pic ehc key mapItem S hS fuel none ∅ [] 0
      (Finset.empty_subset S) (by simpa using hfuel)
    simpa [iter_issue_worklogs_via_graphql] using h
  · intro after seen acc f n c hna hmem
    simp only [gqlLoop, hna, if_pos hmem]
  · intro rfetch ps s seen acc f n hmem
    simp only [restLoop, if_pos hmem]

/-- Witness for C3 against a server that always returns the cursor `c1`:
the run fails after exactly two fetches, within the bound. -/
theorem c3_repeated_cursor_fails_and_bounded_witness :
    ({"c1"} : Finset String).card < 2
    ∧ (iter_issue_worklogs_via_graphql gqlRepeatCursor true true "K" id 2).outcome
        ≠ .outOfFuel
    ∧ (iter_issue_worklogs_via_graphql gqlRepeatCursor true true "K" id 2).fetches
        ≤ ({"c1"} : Finset String).card + 1
    ∧ iter_issue_worklogs_via_graphql gqlRepeatCursor true true "K" id 2
        = ⟨[7, 7], 2,
           .failedSer "Pagination cursor repeated; aborting to prevent infinite loop"⟩ := by
  have hS : ∀ a c, nextAfterOf gqlRepeatCursor true true "K" a = .ok (some c) →
      c ∈ ({"c1"} : Finset String) := by
    intro a c h
    rw [show nextAfterOf gqlRepeatCursor true true "K" a
      = .ok (some "c1") from rfl] at h
    injection h with h1
    injection h1 with h2
    rw [← h2]
    decide
  have h := c3_repeated_cursor_fails_and_bounded gqlRepeatCursor true true "K"
    (id : ℕ → ℕ) {"c1"} 2 hS (by decide)
  exact ⟨by decide, h.1.1, h.1.2, by rfl⟩

/-- C7 counterexample: a GraphQL response whose errors list is non-empty and
whose data is non-null, but rich enough for the needed fields to
deserialize, makes `get_issue_by_key` return the parsed issue — the caller
receives a success, not an operation error carrying the partial data. -/
theorem c7_counterexample :
    cexResponse.errors = some boomErrors
    ∧ cexResponse.data = some goodIssueData
    ∧ get_issue_by_key "cloud-1" "A-1" cexResponse parseKeyField id = .ok "A-1" :=
  ⟨rfl, rfl, rfl⟩

/-- C7 amended: for every GraphQL response whose errors list is non-empty,
if data is null the caller receives an operation error carrying the error
list; if data is non-null and its deserialization fails, the caller receives
an operation error that still carries that partial data; and if the partial
data deserializes, the call succeeds with the mapped result instead of
surfacing an operation error. -/
theorem c7_operation_error_and_partial_data {ι κ : Type}
    (cloud_id issue_key : String) (r : GraphQLResult)
    (parse : Json → Except String ι) (mapIssue : ι → κ)
    (errs : List GraphQLErrorItem)
    (hcid : pyStrip cloud_id ≠ "") (hkey : pyStrip issue_key ≠ "")
    (herr : r.errors = some errs) (hne : errs ≠ []) :
    (r.data = none →
      get_issue_by_key cloud_id issue_key r parse mapIssue
        = .error (.operation errs none))
    ∧ (∀ (d : Json) (m : String), r.data = some d → parse d = .error m →
        get_issue_by_key cloud_id issue_key r parse mapIssue
          = .error (.operation errs (some d)))
    ∧ (∀ (d : Json) (i : ι), r.data = some d → parse d = .ok i →
        get_issue_by_key cloud_id issue_key r parse mapIssue
          = .ok (mapIssue i)) := by
  obtain ⟨e, es, rfl⟩ : ∃ e es, errs = e :: es := by
    cases errs with
    | nil => exact absurd rfl hne
    | cons e es => exact ⟨e, es, rfl⟩
  refine ⟨?_, ?_, ?_⟩
  · intro hdata
    simp only [get_issue_by_key, GraphQLClient.execute, hdata, herr,
      if_neg hcid, if_neg hkey]
  · intro d m hdata hparse
    simp only [get_issue_by_key, GraphQLClient.execute, hdata, herr, hparse,
      if_neg hcid, if_neg hkey]
  · intro d i hdata hparse
    simp only [get_issue_by_key, GraphQLClient.execute, hdata, herr, hparse,
      if_neg hcid, if_neg hkey]

/-- Witness for C7's amended statement: errors with `data=null` produce an
operation error carrying the error list. -/
theorem c7_operation_error_and_partial_data_witness :
    errsNoDataResponse.errors = some boomErrors
    ∧ errsNoDataResponse.data = none
    ∧ get_issue_by_key "cloud-1" "A-1" errsNoDataResponse parseKeyField
        (id : String → String) = .error (.operation boomErrors none) :=
  ⟨rfl, rfl,
    (c7_operation_error_and_partial_data "cloud-1" "A-1" errsNoDataResponse
      parseKeyField id boomErrors (by decide) (by decide) rfl
      (by simp [boomErrors])).1 rfl⟩

/-- C9 counterexample: when a complete refresh-token configuration is
present, `_auth_from_env` returns the refresh credentials without any check,
even though the provided access token is byte-identical to the configured
client secret — construction does not fail fast. -/
theorem c9_counterexample :
    c9Env.access_token = c9Env.client_secret
    ∧ auth_from_env (fun _ => none) c9Env
        = .ok (some (.oauthRefresh "id" "sek" "r")) :=
  ⟨rfl, rfl⟩

/-- C9 amended: when no complete refresh-token configuration (refresh token,
client id and client secret all non-empty) is present, a non-empty provided
access token that is byte-identical to the non-empty configured client
secret makes credential construction fail fast with a configuration error,
before any request; with a complete refresh-token configuration the token is
ignored and construction succeeds. -/
theorem c9_token_equals_secret_guard (env : AuthEnv)
    (jsonParse : String → Option Json)
    (hnoref : ¬ (env.refresh_token ≠ "" ∧ env.client_id ≠ "" ∧ env.client_secret ≠ ""))
    (htok : env.access_token ≠ "") (hsec : env.client_secret ≠ "")
    (heq : env.access_token = env.client_secret) :
    auth_from_env jsonParse env
      = .error ("ATLASSIAN_OAUTH_ACCESS_TOKEN appears to be set to ATLASSIAN_CLIENT_SECRET; "
          ++ "set an OAuth access token (not the client secret).") := by
  unfold auth_from_env
  rw [if_neg hnoref, if_pos htok, if_pos ⟨hsec, by rw [heq]⟩]

/-- Witness for C9's amended statement at a bearer-path environment whose
token equals the secret. -/
theorem c9_token_equals_secret_guard_witness :
    auth_from_env (fun _ => none) ⟨"sek", "", "", "sek", "", "", ""⟩
      = .error ("ATLASSIAN_OAUTH_ACCESS_TOKEN appears to be set to ATLASSIAN_CLIENT_SECRET; "
          ++ "set an OAuth access token (not the client secret).") :=
  c9_token_equals_secret_guard ⟨"sek", "", "", "sek", "", "", ""⟩ (fun _ => none)
    (by simp) (by simp) (by simp) rfl
